import Mathlib

/-!
Verification of the Safehaven Safety Prediction & Hotspot Engine.

Shallow embedding of `src/server/controllers/SafetyController.js` and the
`SafetyMLService` module (`src/unnamed/part_001`).  JavaScript numbers are
modelled as rationals; transcendental library calls (`Math.sin`, `Math.cos`,
`Math.random`, `Date.now`, TensorFlow inference, the Mongo report store) are
passed in as explicit oracle parameters, so every theorem quantifies over all
possible outcomes of those collaborators.  Fallible collaborator calls are
`Except Unit` values: `.error ()` models a rejected promise / thrown exception.
-/

namespace Safehaven

/-- A safety report as stored by the Report Store.  The source keeps the
coordinates GeoJSON-style in `location.coordinates = [lng, lat]`; we carry the
two coordinates directly.  `timestamp` is in milliseconds since the epoch, as
produced by `Date` arithmetic in the source. -/
structure Report where
  type : String
  severity : ℚ
  timestamp : ℚ
  lat : ℚ
  lng : ℚ
deriving DecidableEq

/-- The `{score, confidence}` object resolved by `SafetyMLService.predictSafety`. -/
structure PredPair where
  score : ℚ
  conf : ℚ
deriving DecidableEq

/-- The report types counted as incidents in `getSafeRoutes`
(`['unsafe', 'incident', 'suspicious']`, SafetyController.js line 35). -/
def dangerTypes : List String := ["unsafe", "incident", "suspicious"]

/-! ## A small model of JavaScript dynamic values

`getSafeRoutes` accumulates `totalScore += score` where `score` is either the
number `0.5` (the `.catch` fallback) or the *object* resolved by
`predictSafety`.  JavaScript coerces a number-plus-object addition through
`ToPrimitive`, which turns the object into the string `"[object Object]"`, and
the final division of that string by `midPoints.length` yields `NaN`.  We model
exactly the values that can flow through that loop. -/

/-- A JavaScript value as it can appear in the `totalScore` accumulator of
`getSafeRoutes`: a finite number, a string, the prediction object, or `NaN`. -/
inductive JSVal where
  | num (q : ℚ)
  | str (s : String)
  | objPred (p : PredPair)
  | nan
deriving DecidableEq

/-- JavaScript `ToPrimitive` with the default hint: numbers, strings and `NaN` are already
primitive; a plain object (our prediction record) stringifies to
`"[object Object]"` via `Object.prototype.toString`. -/
def jsToPrim : JSVal → JSVal
  | .objPred _ => .str "[object Object]"
  | v => v

/-- String conversion of a primitive, used by `+` once one operand is a
string.  `numToStr` abstracts JavaScript's number-to-string formatting; every
theorem below holds for an arbitrary formatter because the strings that arise
always contain `"[object Object]"`. -/
def jsPrimToStr (numToStr : ℚ → String) : JSVal → String
  | .num q => numToStr q
  | .str s => s
  | .nan => "NaN"
  | .objPred _ => "[object Object]"

/-- JavaScript `+` on the values reachable in the scoring loop: after
`ToPrimitive`, if either side is a string the result is string concatenation,
otherwise numeric addition (with `NaN` absorbing). -/
def jsAdd (numToStr : ℚ → String) (a b : JSVal) : JSVal :=
  match jsToPrim a, jsToPrim b with
  | .str s, x => .str (s ++ jsPrimToStr numToStr x)
  | x, .str s => .str (jsPrimToStr numToStr x ++ s)
  | .num p, .num q => .num (p + q)
  | _, _ => .nan

/-- Decimal-string parsing for `ToNumber`: digits with at most one dot.
Returns `none` (i.e. `NaN`) for anything else. -/
def parseDecList : List Char → Option ℚ
  | cs =>
    let isD : Char → Bool := fun c => c.isDigit
    let digitsVal : List Char → ℚ :=
      fun l => l.foldl (fun acc c => acc * 10 + ((c.toNat - '0'.toNat : ℕ) : ℚ)) 0
    match cs.splitOn '.' with
    | [intPart] =>
        if intPart ≠ [] ∧ intPart.all isD then some (digitsVal intPart) else none
    | [intPart, fracPart] =>
        if (intPart ≠ [] ∨ fracPart ≠ []) ∧ intPart.all isD ∧ fracPart.all isD then
          some (digitsVal intPart + digitsVal fracPart / (10 : ℚ) ^ fracPart.length)
        else none
    | _ => none

/-- JavaScript `ToNumber` on a string: the empty string is `0`, a plain decimal
numeral parses, anything else (in particular any string containing
`"[object Object]"`) is `NaN` (`none`). -/
def jsStrToNum (s : String) : Option ℚ :=
  if s = "" then some 0 else parseDecList s.toList

/-- JavaScript division of an accumulated value by a (non-zero) number, as in
`totalScore / midPoints.length`. -/
def jsDivNum (v : JSVal) (d : ℚ) : JSVal :=
  match jsToPrim v with
  | .num q => .num (q / d)
  | .nan => .nan
  | .str s =>
      match jsStrToNum s with
      | some q => .num (q / d)
      | none => .nan
  | .objPred _ => .nan

/-! ## Route Scoring Controller (`SafetyController.js`) -/

/-- One emitted route record (`routes.push({start, end, safetyScore, incidents})`,
SafetyController.js lines 42-47).  The source field named `end` is called
`endPt` here because `end` is reserved in Lean; the incident total really is
named `incidents` in the source. -/
structure RouteRecord where
  start : ℚ × ℚ
  endPt : ℚ × ℚ
  safetyScore : JSVal
  incidents : ℕ
deriving DecidableEq

/-- An HTTP-level outcome of a controller method: a JSON payload, a 400 with a
message, a 500, or a 201. -/
inductive HResp (α : Type) where
  | ok (val : α)
  | badRequest (msg : String)
  | serverError
  | created
deriving DecidableEq

/-- Oracle bundle for one `getSafeRoutes` request.  The transcendental atoms of
`generateRoutePoints` (`Math.cos`/`Math.sin` of the jittered bearing,
`180/Math.PI`, `1/Math.cos(lat·π/180)`) and of `getMidPoints`
(`Math.sin(fraction·π)`) are abstract, as are `Math.random` draws and the two
collaborator calls made per midpoint. -/
structure RouteOracles where
  distRnd : ℕ → ℚ
  bearingCos : ℕ → ℚ
  bearingSin : ℕ → ℚ
  degPerRad : ℚ
  invCosLat : ℚ
  sinPiFrac : ℚ → ℚ
  predict : ℕ → ℕ → Except Unit PredPair
  findNearby : ℕ → ℕ → Except Unit (Option (List Report))
  numToStr : ℚ → String

/-- Embedding of `generateRoutePoints(lat, lng, count = 8, distanceKm = 1)`
(SafetyController.js lines 124-137).  `variableDistance = 1·(0.7 + random·0.6)`;
the bearing trigonometry and the two latitude corrections are oracle atoms. -/
def generateRoutePoints (o : RouteOracles) (lat lng : ℚ) (count : ℕ := 8)
    (distanceKm : ℚ := 1) : List (ℚ × ℚ) :=
  (List.range count).map fun i =>
    let variableDistance := distanceKm * (7/10 + o.distRnd i * (3/5))
    let newLat := lat + variableDistance / 6371 * o.bearingCos i * o.degPerRad
    let newLng := lng + variableDistance / 6371 * o.bearingSin i * o.degPerRad * o.invCosLat
    (newLat, newLng)

/-- Embedding of `getMidPoints(lat1, lng1, lat2, lng2, count)` (SafetyController.js lines
139-151): `fraction = i/(count+1)`, `perpFactor = sin(fraction·π)·0.0001`,
lateral offset perpendicular to the chord. -/
def getMidPoints (sinPiFrac : ℚ → ℚ) (lat1 lng1 lat2 lng2 : ℚ) (count : ℕ) :
    List (ℚ × ℚ) :=
  (List.range count).map fun i0 =>
    let fraction : ℚ := (i0 + 1 : ℕ) / ((count : ℚ) + 1)
    let perpFactor := sinPiFrac fraction * (1/10000)
    let dx := lat2 - lat1
    let dy := lng2 - lng1
    (lat1 + fraction * dx + perpFactor * dy, lng1 + fraction * dy - perpFactor * dx)

/-- One iteration of the inner midpoint loop of `getSafeRoutes` (lines 26-38)
for leg `i`, midpoint `j`: an awaited `predictSafety` whose rejection is
caught to the number `0.5` (a resolution is the `{score, confidence}` object)
added onto the accumulator with JavaScript `+`, then an awaited `findNearby`
whose rejection propagates and whose `null` resolution is defaulted to `[]`
before counting unsafe/incident/suspicious reports. -/
def midStep (o : RouteOracles) (i : ℕ) (acc : JSVal × ℕ) (j : ℕ) :
    Except Unit (JSVal × ℕ) := do
  let score : JSVal :=
    match o.predict i j with
    | .ok p => .objPred p
    | .error _ => .num (1/2)
  let totalScore := jsAdd o.numToStr acc.1 score
  let nearbyOpt ← o.findNearby i j
  let nearbyReports := nearbyOpt.getD []
  let dangerReports := nearbyReports.filter fun r => r.type ∈ dangerTypes
  pure (totalScore, acc.2 + dangerReports.length)

/-- The body of the per-route loop of `getSafeRoutes` (lines 21-48) for leg
`i`: three curved midpoints, the midpoint loop, then one record with the
accumulated score divided by `midPoints.length`. -/
def scoreLeg (o : RouteOracles) (lat lng : ℚ) (i : ℕ) (pt : ℚ × ℚ) :
    Except Unit RouteRecord := do
  let midPoints := getMidPoints o.sinPiFrac lat lng pt.1 pt.2 3
  let (totalScore, incidents) ←
    (List.range midPoints.length).foldlM (midStep o i) (JSVal.num 0, 0)
  pure { start := (lat, lng), endPt := pt,
         safetyScore := jsDivNum totalScore (midPoints.length : ℚ),
         incidents := incidents }

/-- JavaScript falsiness of a possibly-missing numeric query field: missing
(`undefined`) and `0` are falsy. -/
def jsFalsy : Option ℚ → Bool
  | none => true
  | some q => q = 0

/-- Embedding of `getSafeRoutes` (SafetyController.js lines 6-56).  `parseRes` is the
outcome of `JSON.parse(req.query.location)` projected to its `lat`/`lng`
fields (absent fields are `none`); a parse exception, like any exception
escaping the loop, lands in the outer `catch` and answers 500. -/
def getSafeRoutes (o : RouteOracles)
    (parseRes : Except Unit (Option ℚ × Option ℚ)) : HResp (List RouteRecord) :=
  match parseRes with
  | .error _ => .serverError
  | .ok (latQ, lngQ) =>
    if jsFalsy latQ ∨ jsFalsy lngQ then .badRequest "Invalid location data"
    else
      let lat := latQ.getD 0
      let lng := lngQ.getD 0
      let routePoints := generateRoutePoints o lat lng
      match (routePoints.enum).mapM (fun ip => scoreLeg o lat lng ip.1 ip.2) with
      | .ok routes => .ok routes
      | .error _ => .serverError

/-- Embedding of `getReports` (SafetyController.js lines 58-74): same location validation,
then a single `findNearby` whose rejection answers 500. -/
def getReports (findRes : Except Unit (List Report))
    (parseRes : Except Unit (Option ℚ × Option ℚ)) (_radius : ℚ) :
    HResp (List Report) :=
  match parseRes with
  | .error _ => .serverError
  | .ok (latQ, lngQ) =>
    if jsFalsy latQ ∨ jsFalsy lngQ then .badRequest "Invalid location data"
    else
      match findRes with
      | .ok reports => .ok reports
      | .error _ => .serverError

/-- The request body of `submitReport`, with each field possibly absent. -/
structure SubmitBody where
  location : Option (ℚ × ℚ)
  description : Option String
  type : Option String
  severity : Option ℚ
deriving DecidableEq

/-- Collaborator outcomes for one `submitReport` call: the awaited
`report.save()` and the `getIO()/io.emit` broadcast. -/
structure SubmitOracle where
  saveRes : Except Unit Unit
  ioRes : Except Unit Unit

/-- Whether a collaborator call succeeded. -/
def isOkB {α : Type} : Except Unit α → Bool
  | .ok _ => true
  | .error _ => false

/-- The validation test of `submitReport` line 80: `!location || !description`
(a present-but-empty description string is falsy). -/
def missingFields (b : SubmitBody) : Bool :=
  b.location.isNone || b.description.isNone || b.description == some ""

/-- Embedding of `submitReport` (SafetyController.js lines 76-107).  Returns the HTTP
outcome together with the number of `SafetyMLService.scheduleTraining()`
invocations performed: the source calls it exactly once, unconditionally, on
line 100 of every successful submission. -/
def submitReport (b : SubmitBody) (o : SubmitOracle) : HResp Unit × ℕ :=
  if missingFields b then (.badRequest "Missing required fields", 0)
  else
    match o.saveRes with
    | .error _ => (.serverError, 0)
    | .ok _ =>
      match o.ioRes with
      | .error _ => (.serverError, 0)
      | .ok _ => (.created, 1)

/-! ## Model Service (`SafetyMLService`, `src/unnamed/part_001`) -/

/-- One prediction-cache entry: `{score, confidence, timestamp}` as written by
`predictSafety`. -/
structure CacheEntry where
  score : ℚ
  conf : ℚ
  timestamp : ℚ
deriving DecidableEq

/-- The cache key `lat.toFixed(5) + "," + lng.toFixed(5)`: the coordinate
quantized to 5 decimal places, carried as the pair of rounded scaled
integers. -/
def quantKey (lat lng : ℚ) : ℤ × ℤ := (round (lat * 100000), round (lng * 100000))

/-- The prediction cache: a JavaScript `Map` from quantized key to entry,
modelled as an association list whose head shadows older bindings. -/
abbrev Cache := List ((ℤ × ℤ) × CacheEntry)

/-- JavaScript `Map.get`. -/
def cacheGet (c : Cache) (k : ℤ × ℤ) : Option CacheEntry :=
  match c with
  | [] => none
  | (k', v) :: rest => if k' = k then some v else cacheGet rest k

/-- JavaScript `Map.set`: the new binding shadows any previous one. -/
def cacheSet (c : Cache) (k : ℤ × ℤ) (v : CacheEntry) : Cache := (k, v) :: c

/-- A predicted hotspot entry as pushed by `identifyHotspots`. -/
structure Hotspot where
  lat : ℚ
  lng : ℚ
  safetyScore : ℚ
  conf : ℚ
  category : String
  reportCount : ℕ
deriving DecidableEq

/-- The mutable fields of the `SafetyMLService` singleton that the verified
operations read or write.  `model` is `none` while `this.model` is still
`null` (the constructor initializes it asynchronously); the loaded model
itself only acts through the abstract inference oracle. -/
structure MLState where
  model : Option Unit
  isTraining : Bool
  lastTrainedAt : Option ℚ
  trainingQueue : List ℚ
  predictionCache : Cache
  modelLoss : Option ℚ
  lastSampleSize : ℕ
  predictedHotspots : List Hotspot
deriving DecidableEq

/-- The TTL `this.cacheTTL = 5 * 60 * 1000` in milliseconds. -/
def cacheTTL : ℚ := 300000

/-- Oracle bundle for one `predictSafety` call: the `Date.now()` read in the
freshness check, the `Date.now()` reads at the cache writes, the `new Date()`
value (ms) with its hour and weekday, the awaited `findNearby` outcome
(`ok none` = resolved to `null`), the `model.predict(...).dataSync()[0]`
outcome, the `Math.random()` draw and the `Math.sin`/`Math.cos` atoms of the
heuristic. -/
structure PredictOracle where
  nowCheck : ℚ
  nowWrite : ℚ
  nowMs : ℚ
  hour : ℕ
  day : ℕ
  nearby : Except Unit (Option (List Report))
  inference : Except Unit ℚ
  rnd : ℚ
  sinH : ℚ → ℚ
  cosH : ℚ → ℚ

/-- Embedding of `getHeuristicSafety(lat, lng)` (part_001 lines 356-370): a time-of-day
base, bounded sinusoids of the coordinates, jitter, clamped to `[0.1, 0.9]`. -/
def getHeuristicSafety (o : PredictOracle) (lat lng : ℚ) : ℚ :=
  let baseScore : ℚ :=
    if o.hour ≥ 22 ∨ o.hour ≤ 5 then 1/2
    else if o.hour ≥ 18 ∧ o.hour < 22 then 3/5
    else if o.hour > 5 ∧ o.hour < 8 then 13/20
    else 7/10
  let latFactor := o.sinH (lat * 10) * (1/10)
  let lngFactor := o.cosH (lng * 10) * (1/10)
  let locationFactor := latFactor + lngFactor
  let randomFactor := o.rnd * (1/10) - 1/20
  max (1/10) (min (9/10) (baseScore + locationFactor + randomFactor))

/-- The `avgDaysSince` of part_001 lines 284-287: mean age, in days, of the nearby
reports at prediction time. -/
def avgDaysSince (o : PredictOracle) (reports : List Report) : ℚ :=
  ((reports.map fun r => (o.nowMs - r.timestamp) / 86400000).sum) / reports.length

/-- The model-path score of `predictSafety` (part_001 lines 305-326): the raw
inference output, minus the night-hour penalty, minus `0.05` per recent
(last-24h) unsafe/incident report, clamped to `[0.1, 0.9]`. -/
def modelScore (o : PredictOracle) (raw : ℚ) (reports : List Report) : ℚ :=
  let s1 := if o.hour ≥ 22 ∨ o.hour ≤ 5 then max (1/10) (raw - 1/10) else raw
  let recentReports := reports.filter fun r => o.nowMs - r.timestamp < 86400000
  let recentDangerCount :=
    (recentReports.filter fun r => r.type = "unsafe" ∨ r.type = "incident").length
  let s2 :=
    if recentReports.length > 0 ∧ recentDangerCount > 0 then
      max (1/10) (s1 - (1/20) * recentDangerCount)
    else s1
  max (1/10) (min (9/10) s2)

/-- The model-path confidence of `predictSafety` (part_001 lines 328-331):
`0.7·min(1, n/10) + 0.3·max(0.5, 1 - avgDays/30)`. -/
def modelConfidence (o : PredictOracle) (reports : List Report) : ℚ :=
  let reportCountFactor := min 1 ((reports.length : ℚ) / 10)
  let recencyFactor := max (1/2) (1 - avgDaysSince o reports / 30)
  reportCountFactor * (7/10) + recencyFactor * (3/10)

/-- The body of `predictSafety` past the cache check (part_001 lines 270-352):
the `try` block computing features, running inference and post-adjustments, and
the `catch` falling back to the heuristic.  A `findNearby` rejection, a `null`
report list (whose `.length` throws) and an inference failure all land in the
`catch`, which caches and returns the heuristic with confidence `0.5`; the
zero-reports branch reaches the same values through the normal exit. -/
def predictSafetyCompute (o : PredictOracle) (st : MLState) (lat lng : ℚ) :
    MLState × PredPair :=
  let key := quantKey lat lng
  let heuristicOut : MLState × PredPair :=
    let s := getHeuristicSafety o lat lng
    ({ st with predictionCache := cacheSet st.predictionCache key ⟨s, 1/2, o.nowWrite⟩ },
     ⟨s, 1/2⟩)
  match o.nearby with
  | .error _ => heuristicOut
  | .ok none => heuristicOut
  | .ok (some []) => heuristicOut
  | .ok (some reports) =>
    match o.inference with
    | .error _ => heuristicOut
    | .ok raw =>
      let s3 := modelScore o raw reports
      let confidence := modelConfidence o reports
      ({ st with predictionCache := cacheSet st.predictionCache key ⟨s3, confidence, o.nowWrite⟩ },
       ⟨s3, confidence⟩)

/-- Embedding of `predictSafety(lat, lng)` (part_001 lines 251-353).  With no model the
heuristic is computed and cached without consulting the cache; otherwise a
fresh cache entry (strictly newer than `Date.now() - cacheTTL`) is returned
as-is, and anything else goes to `predictSafetyCompute`. -/
def predictSafety (o : PredictOracle) (st : MLState) (lat lng : ℚ) :
    MLState × PredPair :=
  match st.model with
  | none =>
    let s := getHeuristicSafety o lat lng
    ({ st with predictionCache :=
         cacheSet st.predictionCache (quantKey lat lng) ⟨s, 1/2, o.nowWrite⟩ },
     ⟨s, 1/2⟩)
  | some _ =>
    let key := quantKey lat lng
    match cacheGet st.predictionCache key with
    | some c =>
        if c.timestamp > o.nowCheck - cacheTTL then (st, ⟨c.score, c.conf⟩)
        else predictSafetyCompute o st lat lng
    | none => predictSafetyCompute o st lat lng

/-- Collaborator outcomes for one `trainModel` run: the awaited
`SafetyReport.find().sort({timestamp:-1}).limit(10000)`, the final epoch loss
of `model.fit` (or its failure), and the `new Date()` taken afterwards. -/
structure TrainOracle where
  findRes : Except Unit (List Report)
  fitRes : Except Unit ℚ
  now : ℚ

/-- The per-report training label of `trainModel` (part_001 lines 184-198):
base score by type adjusted by severity and the local danger ratio, scaled by
recency decay, with the night-hour penalty.  It feeds only the abstract
`fitRes` oracle but is kept for fidelity. -/
def trainingLabel (r : Report) (dangerRatio daysSinceReport : ℚ) (hourOfDay : ℕ) : ℚ :=
  let base : ℚ :=
    if r.type = "unsafe" ∨ r.type = "incident" then
      max (1/10) (1/2 - r.severity / 10 - dangerRatio / 5)
    else if r.type = "safe" then
      min (9/10) (1/2 + r.severity / 10 - dangerRatio / 5)
    else if r.type = "suspicious" then
      max (1/5) (1/2 - r.severity / 20 - dangerRatio / 10)
    else 1/2
  let recencyFactor := max (1/2) (1 - daysSinceReport / 30)
  let scaled := base * recencyFactor
  if hourOfDay ≥ 22 ∨ hourOfDay ≤ 5 then max (1/10) (scaled - 1/10) else scaled

/-- Embedding of `trainModel()` (part_001 lines 152-240) as a state transformer.  Fewer than
10 reports: early return before anything is written.  Otherwise
`lastSampleSize` is set *before* the fit, so a fit failure (caught at line 237)
still leaves it updated, while `lastTrainedAt`/`modelLoss` are only written
after a successful fit.  A `find()` rejection is caught with no writes. -/
def trainModel (o : TrainOracle) (st : MLState) : MLState :=
  match o.findRes with
  | .error _ => st
  | .ok reports =>
    if reports.length < 10 then st
    else
      let st1 := { st with lastSampleSize := reports.length }
      match o.fitRes with
      | .error _ => st1
      | .ok loss => { st1 with lastTrainedAt := some o.now, modelLoss := some loss }

/-- The synchronous prefix of `processTrainingQueue()` (part_001 lines
127-131): the re-entrancy check, the latch and the queue drain all happen
before the first `await`.  Returns the updated state and whether a training
pass was started (its remainder becomes a pending continuation). -/
def processTrainingQueueSync (st : MLState) : MLState × Bool :=
  if st.isTraining ∨ st.trainingQueue = [] then (st, false)
  else ({ st with isTraining := true, trainingQueue := [] }, true)

/-- Embedding of `scheduleTraining()` (part_001 lines 243-248).  If a pass is in flight it
returns at once — no trigger is pushed and the cache is *not* cleared.
Otherwise it pushes `Date.now()`, runs `processTrainingQueue()` up to its first
suspension (starting a pass), and clears the prediction cache.  Returns the
new state and whether a pass was started. -/
def scheduleTraining (now : ℚ) (st : MLState) : MLState × Bool :=
  if st.isTraining then (st, false)
  else
    let st1 := { st with trainingQueue := st.trainingQueue ++ [now] }
    let (st2, started) := processTrainingQueueSync st1
    ({ st2 with predictionCache := [] }, started)

/-- The key `lat.toFixed(3) + "," + lng.toFixed(3)`: the 3-decimal dedup key of
`identifyHotspots`. -/
def key3 (lat lng : ℚ) : ℤ × ℤ := (round (lat * 1000), round (lng * 1000))

/-- The key `lat.toFixed(5) + "," + lng.toFixed(5)` on a hotspot's location, the final
dedup key of `identifyHotspots`. -/
def hotspotKey5 (h : Hotspot) : ℤ × ℤ := quantKey h.lat h.lng

/-- Insertion sort by a boolean "should come no later than" relation, modelling
`Array.prototype.sort` with a numeric comparator. -/
def insertLe {α : Type} (le : α → α → Bool) (a : α) : List α → List α
  | [] => [a]
  | b :: rest => if le a b then a :: b :: rest else b :: insertLe le a rest

/-- Full sort by a boolean comparator. -/
def sortByLe {α : Type} (le : α → α → Bool) : List α → List α
  | [] => []
  | a :: rest => insertLe le a (sortByLe le rest)

/-- The prediction entry pushed by `identifyHotspots` for the center `r`
(part_001 lines 401-408): location, predicted score/confidence, category by
thresholds `0.7`/`0.4`, and the within-2-km neighbor count. -/
def hotspotOf (dist : ℚ → ℚ → ℚ → ℚ → ℚ) (predict : ℚ → ℚ → PredPair)
    (reports : List Report) (r : Report) : Hotspot :=
  let nearbyCount := (reports.filter fun x => dist r.lat r.lng x.lat x.lng ≤ 2).length
  let p := predict r.lat r.lng
  { lat := r.lat, lng := r.lng, safetyScore := p.score, conf := p.conf,
    category :=
      if p.score > 7/10 then "safe" else if p.score < 2/5 then "unsafe" else "moderate",
    reportCount := nearbyCount }

/-- One iteration of the candidate-collection loop of `identifyHotspots`
(part_001 lines 384-410): skip centers already seen at 3-decimal precision,
mark the center as seen, and keep it as a prediction when at least 3 reports
lie within 2 km of it under the true (haversine) distance `dist`. -/
def candStep (dist : ℚ → ℚ → ℚ → ℚ → ℚ) (predict : ℚ → ℚ → PredPair)
    (reports : List Report) (acc : List (ℤ × ℤ) × List Hotspot) (r : Report) :
    List (ℤ × ℤ) × List Hotspot :=
  if key3 r.lat r.lng ∈ acc.1 then acc
  else if (reports.filter fun x => dist r.lat r.lng x.lat x.lng ≤ 2).length ≥ 3 then
    (key3 r.lat r.lng :: acc.1, acc.2 ++ [hotspotOf dist predict reports r])
  else (key3 r.lat r.lng :: acc.1, acc.2)

/-- The candidate-collection loop of `identifyHotspots`: walk the fetched
reports newest-first, accumulating predictions.  `predict` abstracts the
awaited `this.predictSafety(lat, lng)` (whose cache side effects do not feed
back into this loop's output). -/
def hotspotCandidates (dist : ℚ → ℚ → ℚ → ℚ → ℚ) (predict : ℚ → ℚ → PredPair)
    (reports : List Report) : List Hotspot :=
  (reports.foldl (candStep dist predict reports) ([], [])).2

/-- One iteration of the final dedup of `identifyHotspots` (lines 420-430):
keep the first occurrence of each 5-decimal location key. -/
def dedupStep (acc : List (ℤ × ℤ) × List Hotspot) (h : Hotspot) :
    List (ℤ × ℤ) × List Hotspot :=
  if hotspotKey5 h ∈ acc.1 then acc else (hotspotKey5 h :: acc.1, acc.2 ++ [h])

/-- The final dedup of `identifyHotspots`. -/
def dedupByKey5 (l : List Hotspot) : List Hotspot :=
  (l.foldl dedupStep ([], [])).2

/-- Embedding of `identifyHotspots()` (part_001 lines 373-437) as a function from the
fetched recent reports (≤ 500, newest first) and model presence to the new
hotspot set.  `none` models the paths that leave `this.predictedHotspots`
untouched: a `find()` rejection (caught at line 434) and the early return for
fewer than 20 reports or a missing model.  `some hs` models the atomic swap
`this.predictedHotspots = uniqueHotspots`. -/
def identifyHotspots (dist : ℚ → ℚ → ℚ → ℚ → ℚ) (predict : ℚ → ℚ → PredPair)
    (findRes : Except Unit (List Report)) (modelPresent : Bool) :
    Option (List Hotspot) :=
  match findRes with
  | .error _ => none
  | .ok reports =>
    if reports.length < 20 ∨ modelPresent = false then none
    else
      let predictions := hotspotCandidates dist predict reports
      let sortedByScore := sortByLe (fun a b => a.safetyScore ≥ b.safetyScore) predictions
      let safestLocations := sortedByScore.take 5
      let lowestLocations := (sortedByScore.drop (sortedByScore.length - 5)).reverse
      let sortedByActivity := sortByLe (fun a b => a.reportCount ≥ b.reportCount) predictions
      let mostActiveLocations := sortedByActivity.take 5
      some (dedupByKey5 (safestLocations ++ lowestLocations ++ mostActiveLocations))

/-! ## The training scheduler as an event system

A system configuration is the service state plus the number of training-pass
continuations currently pending (started but not yet run to completion).
Events are the externally triggered operations: a `scheduleTraining()` call
(one per report submission), the completion of a pending pass (running the
remainder of `processTrainingQueue` — `trainModel`, the best-effort
`saveModel`, `identifyHotspots`, and the `finally` block), and a
`predictSafety` call. -/

/-- Everything a completing training pass consumes: the `trainModel` oracles
and the `identifyHotspots` inputs. -/
structure PassPayload where
  train : TrainOracle
  dist : ℚ → ℚ → ℚ → ℚ → ℚ
  predict : ℚ → ℚ → PredPair
  hotspotFind : Except Unit (List Report)

/-- The remainder of `processTrainingQueue()` after its synchronous prefix
(part_001 lines 134-148): train, best-effort save (no state effect), recompute
hotspots, then `finally` drop the latch.  Returns the state and whether the
`setTimeout` reschedule fired (queue non-empty at the `finally`). -/
def finishPass (p : PassPayload) (st : MLState) : MLState × Bool :=
  let st1 := trainModel p.train st
  let st2 :=
    match identifyHotspots p.dist p.predict p.hotspotFind st1.model.isSome with
    | some hs => { st1 with predictedHotspots := hs }
    | none => st1
  let st3 := { st2 with isTraining := false }
  (st3, decide (st3.trainingQueue ≠ []))

/-- An external event of the Model Service. -/
inductive Ev where
  | sched (now : ℚ)
  | finish (p : PassPayload)
  | predictAt (lat lng : ℚ) (o : PredictOracle)

/-- One step of the event system on (state, pending training passes).  A
`finish` event only does anything when a pass is actually pending. -/
def step : MLState × ℕ → Ev → MLState × ℕ
  | (st, n), .sched now =>
      let (st', started) := scheduleTraining now st
      (st', n + (if started then 1 else 0))
  | (st, n), .finish p =>
      if n = 0 then (st, n)
      else ((finishPass p st).1, n - 1)
  | (st, n), .predictAt lat lng o => ((predictSafety o st lat lng).1, n)

/-- The service state right after construction (part_001 lines 21-32). -/
def initState : MLState :=
  { model := none, isTraining := false, lastTrainedAt := none, trainingQueue := [],
    predictionCache := [], modelLoss := none, lastSampleSize := 0,
    predictedHotspots := [] }

/-- Running a trace of events from the initial configuration. -/
def runEvents (evs : List Ev) : MLState × ℕ :=
  evs.foldl step (initState, 0)

/-! ## Helper lemmas -/

theorem isOkB_iff {α : Type} (e : Except Unit α) : isOkB e = true ↔ ∃ v, e = .ok v := by
  cases e <;> simp [isOkB]

theorem scheduleTraining_of_isTraining (st : MLState) (now : ℚ)
    (h : st.isTraining = true) : scheduleTraining now st = (st, false) := by
  simp [scheduleTraining, h]

theorem scheduleTraining_of_idle (st : MLState) (now : ℚ)
    (h : st.isTraining = false) :
    scheduleTraining now st
      = ({ st with isTraining := true, trainingQueue := [], predictionCache := [] }, true) := by
  rcases st with ⟨mo, it, lta, tq, pc, ml, lss, ph⟩
  simp only [MLState.isTraining] at h
  subst h
  simp [scheduleTraining, processTrainingQueueSync]

theorem predictSafetyCompute_shape (o : PredictOracle) (st : MLState) (lat lng : ℚ) :
    ∃ s c, predictSafetyCompute o st lat lng
      = ({ st with predictionCache :=
             cacheSet st.predictionCache (quantKey lat lng) ⟨s, c, o.nowWrite⟩ },
         ⟨s, c⟩) := by
  unfold predictSafetyCompute
  rcases o.nearby with _ | (_ | ⟨_ | ⟨a, t⟩⟩)
  · exact ⟨_, _, rfl⟩
  · exact ⟨_, _, rfl⟩
  · exact ⟨_, _, rfl⟩
  · rcases o.inference with _ | raw
    · exact ⟨_, _, rfl⟩
    · exact ⟨_, _, rfl⟩

theorem predictSafety_isTraining (o : PredictOracle) (st : MLState) (lat lng : ℚ) :
    (predictSafety o st lat lng).1.isTraining = st.isTraining := by
  cases hm : st.model with
  | none => simp [predictSafety, hm]
  | some m =>
    cases hcg : cacheGet st.predictionCache (quantKey lat lng) with
    | none =>
        obtain ⟨s, c, hc⟩ := predictSafetyCompute_shape o st lat lng
        simp only [predictSafety, hm, hcg, hc]
    | some e =>
        by_cases hf : e.timestamp > o.nowCheck - cacheTTL
        · simp [predictSafety, hm, hcg, hf]
        · obtain ⟨s, c, hc⟩ := predictSafetyCompute_shape o st lat lng
          simp only [predictSafety, hm, hcg, if_neg hf, hc]

theorem predictSafety_model (o : PredictOracle) (st : MLState) (lat lng : ℚ) :
    (predictSafety o st lat lng).1.model = st.model := by
  cases hm : st.model with
  | none => simp [predictSafety, hm]
  | some m =>
    cases hcg : cacheGet st.predictionCache (quantKey lat lng) with
    | none =>
        obtain ⟨s, c, hc⟩ := predictSafetyCompute_shape o st lat lng
        simp only [predictSafety, hm, hcg, hc]
    | some e =>
        by_cases hf : e.timestamp > o.nowCheck - cacheTTL
        · simp [predictSafety, hm, hcg, hf]
        · obtain ⟨s, c, hc⟩ := predictSafetyCompute_shape o st lat lng
          simp only [predictSafety, hm, hcg, if_neg hf, hc]

theorem cacheGet_cacheSet_self (c : Cache) (k : ℤ × ℤ) (v : CacheEntry) :
    cacheGet (cacheSet c k v) k = some v := by
  simp [cacheGet, cacheSet]

/-- The invariant tying the pending-pass count to the `isTraining` latch. -/
def pendingInv (c : MLState × ℕ) : Prop :=
  c.2 = if c.1.isTraining then 1 else 0

theorem step_pendingInv (c : MLState × ℕ) (e : Ev) (h : pendingInv c) :
    pendingInv (step c e) := by
  rcases c with ⟨st, n⟩
  unfold pendingInv at h ⊢
  cases e with
  | sched now =>
      cases hit : st.isTraining with
      | true =>
          simp only [step, scheduleTraining_of_isTraining st now hit]
          simpa [hit] using h
      | false =>
          simp only [step, scheduleTraining_of_idle st now hit]
          simp only [hit, if_false] at h
          simp [h]
  | finish p =>
      by_cases hn : n = 0
      · simp only [step, hn, if_pos rfl]
        simpa [hn] using h
      · have hit : st.isTraining = true := by
          cases hit : st.isTraining with
          | true => rfl
          | false => simp [hit] at h; exact absurd h hn
        have hn1 : n = 1 := by simpa [hit] using h
        simp only [step, if_neg hn, finishPass, hn1]
        split <;> simp
  | predictAt lat lng o =>
      simp only [step, predictSafety_isTraining o st lat lng]
      exact h

theorem foldl_step_pendingInv (evs : List Ev) :
    ∀ c : MLState × ℕ, pendingInv c → pendingInv (evs.foldl step c) := by
  induction evs with
  | nil => intro c h; exact h
  | cons e t ih => intro c h; exact ih _ (step_pendingInv c e h)

theorem runEvents_pendingInv (evs : List Ev) : pendingInv (runEvents evs) :=
  foldl_step_pendingInv evs (initState, 0) (by simp [pendingInv, initState])

/-! ## Concrete instances used by witnesses and counterexamples -/

/-- A route-oracle bundle whose collaborators all succeed trivially. -/
def quietRouteOracles : RouteOracles :=
  { distRnd := fun _ => 0, bearingCos := fun _ => 0, bearingSin := fun _ => 0,
    degPerRad := 0, invCosLat := 0, sinPiFrac := fun _ => 0,
    predict := fun _ _ => .error (), findNearby := fun _ _ => .ok none,
    numToStr := fun _ => "0" }

/-- A route-oracle bundle where the Report Store rejects every `findNearby`. -/
def storeDownOracles : RouteOracles :=
  { quietRouteOracles with findNearby := (fun _ _ => .error ()) }

/-- A route-oracle bundle where every prediction resolves to the
`{score: 0.8, confidence: 0.6}` object and the store finds no reports. -/
def objectScoreOracles : RouteOracles :=
  { quietRouteOracles with
    predict := (fun _ _ => .ok ⟨4/5, 3/5⟩),
    findNearby := (fun _ _ => .ok (some [])) }

/-- A service state with a loaded model and an empty cache. -/
def readyState : MLState := { initState with model := some () }

/-- A service state in the middle of a training pass, with one cached entry. -/
def busyState : MLState :=
  { initState with
    model := (some ()), isTraining := true,
    predictionCache := [((0, 0), ⟨1/2, 1/2, 0⟩)] }

/-- A prediction-oracle bundle for a heuristic (no-report) noon call with
jitter `r` and clock reading `t`. -/
def heurOracle (r t : ℚ) : PredictOracle :=
  { nowCheck := t, nowWrite := t, nowMs := t, hour := 12, day := 2,
    nearby := .ok (some []), inference := .ok 0, rnd := r,
    sinH := fun _ => 0, cosH := fun _ => 0 }

/-! ## Claims -/

/-- C10: at the HTTP surface, `getSafeRoutes` and `getReports` reject a parsed
location whose `lat` or `lng` equals `0` with status 400 "Invalid location
data", exactly as they reject a missing coordinate — the `!lat || !lng` test
treats `0` as falsy. -/
theorem c10_zero_coordinate_rejected (o : RouteOracles)
    (frs : Except Unit (List Report)) (radius lat lng : ℚ)
    (h : lat = 0 ∨ lng = 0) :
    getSafeRoutes o (.ok (some lat, some lng)) = .badRequest "Invalid location data"
    ∧ getReports frs (.ok (some lat, some lng)) radius
        = .badRequest "Invalid location data"
    ∧ getSafeRoutes o (.ok (none, some lng)) = .badRequest "Invalid location data"
    ∧ getReports frs (.ok (some lat, none)) radius
        = .badRequest "Invalid location data" := by
  refine ⟨?_, ?_, ?_, ?_⟩ <;>
    rcases h with h | h <;>
      simp [getSafeRoutes, getReports, jsFalsy, h]

/-- C10 witness: the equator point `(0, 5)` is rejected by both endpoints. -/
theorem c10_witness :
    getSafeRoutes quietRouteOracles (.ok (some 0, some 5))
        = .badRequest "Invalid location data"
    ∧ getReports (.ok []) (.ok (some 0, some 5)) 1
        = .badRequest "Invalid location data" := by
  have h := c10_zero_coordinate_rejected quietRouteOracles (.ok []) 1 0 5 (Or.inl rfl)
  exact ⟨h.1, h.2.1⟩

/-- C8: with fewer than 10 fetched reports, `trainModel()` returns before any
write — `lastTrainedAt`, `modelLoss`, `lastSampleSize` and the model are all
left unchanged (the whole state is). -/
theorem c8_trainModel_insufficient_data (st : MLState) (o : TrainOracle)
    (reports : List Report) (hfind : o.findRes = .ok reports)
    (hlen : reports.length < 10) : trainModel o st = st := by
  simp [trainModel, hfind, hlen]

/-- C8 witness: an empty report fetch leaves the freshly constructed state
untouched. -/
theorem c8_witness :
    ([] : List Report).length < 10
    ∧ trainModel ⟨.ok [], .ok 0, 0⟩ initState = initState :=
  ⟨by decide, c8_trainModel_insufficient_data initState ⟨.ok [], .ok 0, 0⟩ [] rfl (by decide)⟩

/-- A submission body with a non-qualifying report (`type = "safe"`,
`severity = 1`) under the spec's training-trigger condition. -/
def mildBody : SubmitBody := ⟨some (1, 1), some "well lit street", some "safe", some 1⟩

/-- A submit-oracle bundle where `save` and the broadcast both succeed. -/
def okSubmitOracle : SubmitOracle := ⟨.ok (), .ok ()⟩

/-- C7 counterexample: a successful submission with `severity = 1` and
`type = "safe"` — which the claim says must not schedule training — still
invokes `scheduleTraining()` exactly once: the call on SafetyController.js
line 100 is unconditional. -/
theorem c7_counterexample :
    (submitReport mildBody okSubmitOracle).2 = 1
    ∧ mildBody.type = some "safe" ∧ mildBody.severity = some 1 := by
  decide

/-- C7 amended: `submitReport` invokes `scheduleTraining()` exactly once on
every successful submission — regardless of severity and type — and zero times
when validation fails or `save`/broadcast reject. -/
theorem c7_schedule_on_every_success (b : SubmitBody) (o : SubmitOracle) :
    (submitReport b o).2
      = if missingFields b = false ∧ isOkB o.saveRes = true ∧ isOkB o.ioRes = true
        then 1 else 0 := by
  rcases o with ⟨sr, ir⟩
  cases hmf : missingFields b <;> cases sr <;> cases ir <;>
    simp [submitReport, hmf, isOkB]

/-- C5 counterexample: invoking `scheduleTraining()` while a pass is in flight
(`isTraining = true`) neither enqueues a trigger nor clears the non-empty
prediction cache — the line-244 guard returns immediately, so the claimed
"every invocation enqueues and immediately clears the cache" is false. -/
theorem c5_counterexample :
    scheduleTraining 5 busyState = (busyState, false)
    ∧ busyState.trainingQueue = [] ∧ busyState.predictionCache ≠ [] := by
  refine ⟨rfl, rfl, ?_⟩
  simp [busyState, initState]

/-- C5 amended: when no pass is in flight, `scheduleTraining()` enqueues a
trigger that is immediately drained into a freshly started pass and clears the
prediction cache, so a subsequent `predictSafety` call (with a model loaded)
recomputes instead of serving any pre-training cached value; when a pass is in
flight the call is a complete no-op. -/
theorem c5_schedule_clears_cache_when_idle (st : MLState) (now : ℚ)
    (h : st.isTraining = false) :
    scheduleTraining now st
      = ({ st with isTraining := true, trainingQueue := [], predictionCache := [] }, true)
    ∧ ∀ (o : PredictOracle) (lat lng : ℚ) (m : Unit),
        (scheduleTraining now st).1.model = some m →
        predictSafety o (scheduleTraining now st).1 lat lng
          = predictSafetyCompute o (scheduleTraining now st).1 lat lng := by
  have hsched := scheduleTraining_of_idle st now h
  refine ⟨hsched, ?_⟩
  intro o lat lng m hm
  have hcg : cacheGet (scheduleTraining now st).1.predictionCache (quantKey lat lng) = none := by
    rw [hsched]
    rfl
  simp only [predictSafety, hm, hcg]

/-- C5 witness: scheduling on an idle ready state clears the cache and starts
a pass. -/
theorem c5_witness :
    scheduleTraining 3 readyState
      = ({ readyState with isTraining := true, trainingQueue := [], predictionCache := [] },
         true) :=
  (c5_schedule_clears_cache_when_idle readyState 3 rfl).1

/-- C6 counterexample: a second `scheduleTraining()` arriving while the pass
started by the first is still in flight does *not* enqueue a trigger — the
queue stays empty (and the first call left the latch set).  The claim's
"repeated submissions while training is in flight enqueue triggers" is false:
they are dropped. -/
theorem c6_counterexample :
    (runEvents [Ev.sched 0, Ev.sched 1]).1.trainingQueue = []
    ∧ (runEvents [Ev.sched 0]).1.isTraining = true := by
  decide

/-- C6 amended: the latch keeps training single-flight — along every event
trace at most one training pass is pending at any time — and a
`scheduleTraining()` call made while a pass is in flight is dropped outright
(state unchanged, nothing enqueued, no second pass started). -/
theorem c6_single_flight :
    (∀ evs : List Ev, (runEvents evs).2 ≤ 1)
    ∧ ∀ (st : MLState) (now : ℚ), st.isTraining = true →
        scheduleTraining now st = (st, false) := by
  constructor
  · intro evs
    have h := runEvents_pendingInv evs
    unfold pendingInv at h
    rw [h]
    split <;> simp
  · exact fun st now h => scheduleTraining_of_isTraining st now h

/-- C6 witness: a two-submission trace keeps at most one pending pass, and a
schedule against the busy state is dropped. -/
theorem c6_witness :
    (runEvents [Ev.sched 0, Ev.sched 1]).2 ≤ 1
    ∧ scheduleTraining 7 busyState = (busyState, false) :=
  ⟨c6_single_flight.1 [Ev.sched 0, Ev.sched 1], c6_single_flight.2 busyState 7 rfl⟩

/-! ### C3: predictSafety range and fallback -/

theorem getHeuristicSafety_bounds (o : PredictOracle) (lat lng : ℚ) :
    1/10 ≤ getHeuristicSafety o lat lng ∧ getHeuristicSafety o lat lng ≤ 9/10 := by
  unfold getHeuristicSafety
  exact ⟨le_max_left _ _, max_le (by norm_num) (min_le_left _ _)⟩

theorem modelScore_bounds (o : PredictOracle) (raw : ℚ) (reports : List Report) :
    1/10 ≤ modelScore o raw reports ∧ modelScore o raw reports ≤ 9/10 := by
  unfold modelScore
  exact ⟨le_max_left _ _, max_le (by norm_num) (min_le_left _ _)⟩

theorem avgDaysSince_nonneg (o : PredictOracle) (reports : List Report)
    (h : ∀ r ∈ reports, r.timestamp ≤ o.nowMs) : 0 ≤ avgDaysSince o reports := by
  unfold avgDaysSince
  apply div_nonneg
  · apply List.sum_nonneg
    intro x hx
    obtain ⟨r, hr, rfl⟩ := List.mem_map.1 hx
    have := h r hr
    apply div_nonneg (by linarith) (by norm_num)
  · positivity

theorem modelConfidence_bounds (o : PredictOracle) (reports : List Report)
    (h : 0 ≤ avgDaysSince o reports) :
    0 ≤ modelConfidence o reports ∧ modelConfidence o reports ≤ 1 := by
  unfold modelConfidence
  have h1 : min 1 ((reports.length : ℚ)/10) ≤ 1 := min_le_left _ _
  have h2 : 0 ≤ min 1 ((reports.length : ℚ)/10) := le_min (by norm_num) (by positivity)
  have h3 : (1/2 : ℚ) ≤ max (1/2) (1 - avgDaysSince o reports / 30) := le_max_left _ _
  have h4 : max (1/2 : ℚ) (1 - avgDaysSince o reports / 30) ≤ 1 := by
    apply max_le (by norm_num)
    have h5 : 0 ≤ avgDaysSince o reports / 30 := by positivity
    linarith
  constructor <;> nlinarith

theorem predictSafetyCompute_pair (o : PredictOracle) (st : MLState) (lat lng : ℚ) :
    (predictSafetyCompute o st lat lng).2 = ⟨getHeuristicSafety o lat lng, 1/2⟩
    ∨ ∃ raw reports, o.inference = .ok raw ∧ o.nearby = .ok (some reports) ∧ reports ≠ [] ∧
        (predictSafetyCompute o st lat lng).2
          = ⟨modelScore o raw reports, modelConfidence o reports⟩ := by
  unfold predictSafetyCompute
  cases hnb : o.nearby with
  | error e => exact Or.inl rfl
  | ok v =>
    cases v with
    | none => exact Or.inl rfl
    | some reports =>
      cases reports with
      | nil => exact Or.inl rfl
      | cons a t =>
        cases hinf : o.inference with
        | error e => exact Or.inl rfl
        | ok raw => exact Or.inr ⟨raw, a :: t, rfl, rfl, by simp, rfl⟩

/-- C3: `predictSafety` always returns `score ∈ [0.1, 0.9]` and
`confidence ∈ [0, 1]` — including on a cache hit against a well-formed cache,
with zero nearby reports, and under any collaborator outcome — provided the
nearby reports are not dated in the future; and any computation whose
inference fails, as well as the zero-reports case, falls back to the heuristic
score with confidence exactly `0.5` instead of propagating an error. -/
theorem c3_predictSafety_in_range (o : PredictOracle) (st : MLState) (lat lng : ℚ)
    (hwf : ∀ k e, cacheGet st.predictionCache k = some e →
      1/10 ≤ e.score ∧ e.score ≤ 9/10 ∧ 0 ≤ e.conf ∧ e.conf ≤ 1)
    (hts : ∀ reports, o.nearby = .ok (some reports) → ∀ r ∈ reports, r.timestamp ≤ o.nowMs) :
    (1/10 ≤ (predictSafety o st lat lng).2.score
      ∧ (predictSafety o st lat lng).2.score ≤ 9/10
      ∧ 0 ≤ (predictSafety o st lat lng).2.conf
      ∧ (predictSafety o st lat lng).2.conf ≤ 1)
    ∧ (o.inference = .error () →
        (predictSafetyCompute o st lat lng).2 = ⟨getHeuristicSafety o lat lng, 1/2⟩)
    ∧ (o.nearby = .ok (some []) →
        (predictSafetyCompute o st lat lng).2 = ⟨getHeuristicSafety o lat lng, 1/2⟩) := by
  have hcomp : 1/10 ≤ (predictSafetyCompute o st lat lng).2.score
      ∧ (predictSafetyCompute o st lat lng).2.score ≤ 9/10
      ∧ 0 ≤ (predictSafetyCompute o st lat lng).2.conf
      ∧ (predictSafetyCompute o st lat lng).2.conf ≤ 1 := by
    rcases predictSafetyCompute_pair o st lat lng with h | ⟨raw, reports, hi, hn, hne, h⟩
    · rw [h]
      have hb := getHeuristicSafety_bounds o lat lng
      exact ⟨hb.1, hb.2, by norm_num, by norm_num⟩
    · rw [h]
      have hms := modelScore_bounds o raw reports
      have hav := avgDaysSince_nonneg o reports (hts reports hn)
      have hmc := modelConfidence_bounds o reports hav
      exact ⟨hms.1, hms.2, hmc.1, hmc.2⟩
  refine ⟨?_, ?_, ?_⟩
  · cases hm : st.model with
    | none =>
        simp only [predictSafety, hm]
        have hb := getHeuristicSafety_bounds o lat lng
        exact ⟨hb.1, hb.2, by norm_num, by norm_num⟩
    | some m =>
      cases hcg : cacheGet st.predictionCache (quantKey lat lng) with
      | none => simp only [predictSafety, hm, hcg]; exact hcomp
      | some e =>
        by_cases hf : e.timestamp > o.nowCheck - cacheTTL
        · simp only [predictSafety, hm, hcg, if_pos hf]
          exact hwf _ e hcg
        · simp only [predictSafety, hm, hcg, if_neg hf]
          exact hcomp
  · intro hinf
    rcases predictSafetyCompute_pair o st lat lng with h | ⟨raw, reports, hi, hn, hne, h⟩
    · exact h
    · rw [hinf] at hi; cases hi
  · intro hnb
    rcases predictSafetyCompute_pair o st lat lng with h | ⟨raw, reports, hi, hn, hne, h⟩
    · exact h
    · rw [hnb] at hn
      injection hn with hn'
      injection hn' with hn''
      exact absurd hn''.symm hne

/-- A report dated in the past of `failInferOracle.nowMs`. -/
def pastReport : Report := ⟨"unsafe", 3, 0, 1, 1⟩

/-- A prediction-oracle bundle where the store finds one report and inference
is forced to fail. -/
def failInferOracle : PredictOracle :=
  { nowCheck := 0, nowWrite := 0, nowMs := 1000, hour := 12, day := 2,
    nearby := .ok (some [pastReport]), inference := .error (), rnd := 0,
    sinH := fun _ => 0, cosH := fun _ => 0 }

/-- C3 witness: a forced-failure call on the fresh ready state stays in range
and falls back to the heuristic with confidence `0.5`. -/
theorem c3_witness :
    (1/10 ≤ (predictSafety failInferOracle readyState 1 1).2.score
      ∧ (predictSafety failInferOracle readyState 1 1).2.conf ≤ 1)
    ∧ (predictSafetyCompute failInferOracle readyState 1 1).2
        = ⟨getHeuristicSafety failInferOracle 1 1, 1/2⟩ := by
  have hwf : ∀ k e, cacheGet readyState.predictionCache k = some e →
      1/10 ≤ e.score ∧ e.score ≤ 9/10 ∧ 0 ≤ e.conf ∧ e.conf ≤ 1 := by
    intro k e h
    simp [readyState, initState, cacheGet] at h
  have hts : ∀ reports, failInferOracle.nearby = .ok (some reports) →
      ∀ r ∈ reports, r.timestamp ≤ failInferOracle.nowMs := by
    intro reports h r hr
    simp only [failInferOracle] at h ⊢
    injection h with h'
    injection h' with h''
    subst h''
    rcases List.mem_singleton.1 hr with rfl
    norm_num [pastReport]
  have h := c3_predictSafety_in_range failInferOracle readyState 1 1 hwf hts
  exact ⟨⟨h.1.1, h.1.2.2.2⟩, h.2.1 rfl⟩

/-! ### C4: cache coherence -/

/-- C4 counterexample: while `this.model` is still `null` (as it is until the
asynchronous `initModel` completes), `predictSafety` bypasses the cache
entirely, so two calls for the same coordinate one second apart — well inside
the 5-minute TTL, with no cache clear in between — return different results
(the heuristic re-rolls its jitter).  The claim as stated is therefore
false. -/
theorem c4_counterexample :
    (predictSafety (heurOracle 0 0) initState 1 1).2 = ⟨13/20, 1/2⟩
    ∧ (predictSafety (heurOracle (1/2) 1000)
        (predictSafety (heurOracle 0 0) initState 1 1).1 1 1).2 = ⟨7/10, 1/2⟩
    ∧ (13/20 : ℚ) ≠ 7/10 ∧ (1000 : ℚ) - 0 < cacheTTL := by
  refine ⟨?_, ?_, by norm_num, by norm_num [cacheTTL]⟩ <;>
    norm_num [predictSafety, initState, getHeuristicSafety, heurOracle]

/-- C4 amended: once a model is loaded, two `predictSafety` calls for the same
quantized coordinate with no intervening cache clear return identical
`(score, confidence)` pairs whenever the second call still sees every relevant
entry as fresh (in particular whenever it happens within the TTL of the first
call's write); and a cache entry at least TTL old is never served — the call
behaves exactly like a cache miss and recomputes. -/
theorem c4_cache_coherence (st : MLState) (m : Unit) (lat lng : ℚ)
    (hm : st.model = some m) :
    (∀ o1 o2 : PredictOracle,
        o2.nowCheck - cacheTTL < o1.nowWrite →
        (∀ e, cacheGet st.predictionCache (quantKey lat lng) = some e →
          o2.nowCheck - cacheTTL < e.timestamp) →
        (predictSafety o2 (predictSafety o1 st lat lng).1 lat lng).2
          = (predictSafety o1 st lat lng).2)
    ∧ (∀ (o : PredictOracle) e,
        cacheGet st.predictionCache (quantKey lat lng) = some e →
        e.timestamp ≤ o.nowCheck - cacheTTL →
        predictSafety o st lat lng = predictSafetyCompute o st lat lng) := by
  constructor
  · intro o1 o2 h1 h2
    cases hcg : cacheGet st.predictionCache (quantKey lat lng) with
    | some e =>
      by_cases hf : e.timestamp > o1.nowCheck - cacheTTL
      · have hr1 : predictSafety o1 st lat lng = (st, ⟨e.score, e.conf⟩) := by
          simp only [predictSafety, hm, hcg, if_pos hf]
        rw [hr1]
        have hf2 : e.timestamp > o2.nowCheck - cacheTTL := h2 e hcg
        simp only [predictSafety, hm, hcg, if_pos hf2]
      · have hr1 : predictSafety o1 st lat lng = predictSafetyCompute o1 st lat lng := by
          simp only [predictSafety, hm, hcg, if_neg hf]
        obtain ⟨s, c, hcs⟩ := predictSafetyCompute_shape o1 st lat lng
        rw [hr1, hcs]
        have hget := cacheGet_cacheSet_self st.predictionCache (quantKey lat lng)
          ⟨s, c, o1.nowWrite⟩
        have hf2 : (⟨s, c, o1.nowWrite⟩ : CacheEntry).timestamp > o2.nowCheck - cacheTTL := h1
        simp only [predictSafety, hm, hget, if_pos hf2]
    | none =>
      have hr1 : predictSafety o1 st lat lng = predictSafetyCompute o1 st lat lng := by
        simp only [predictSafety, hm, hcg]
      obtain ⟨s, c, hcs⟩ := predictSafetyCompute_shape o1 st lat lng
      rw [hr1, hcs]
      have hget := cacheGet_cacheSet_self st.predictionCache (quantKey lat lng)
        ⟨s, c, o1.nowWrite⟩
      have hf2 : (⟨s, c, o1.nowWrite⟩ : CacheEntry).timestamp > o2.nowCheck - cacheTTL := h1
      simp only [predictSafety, hm, hget, if_pos hf2]
  · intro o e hcg hstale
    have hf : ¬ e.timestamp > o.nowCheck - cacheTTL := not_lt.mpr hstale
    simp only [predictSafety, hm, hcg, if_neg hf]

/-- C4 witness: with a model loaded, a second call 100 ms after the first
returns the identical pair. -/
theorem c4_witness :
    (predictSafety (heurOracle 0 200) (predictSafety (heurOracle 0 100) readyState 1 1).1 1 1).2
      = (predictSafety (heurOracle 0 100) readyState 1 1).2 :=
  (c4_cache_coherence readyState () 1 1 rfl).1 (heurOracle 0 100) (heurOracle 0 200)
    (by norm_num [heurOracle, cacheTTL])
    (by intro e h; simp [readyState, initState, cacheGet] at h)

/-! ### C9: hotspot qualification -/

theorem mem_insertLe {α : Type} (le : α → α → Bool) (a x : α) (l : List α) :
    x ∈ insertLe le a l ↔ x = a ∨ x ∈ l := by
  induction l with
  | nil => simp [insertLe]
  | cons b t ih =>
    simp only [insertLe]
    split
    · simp [List.mem_cons]
    · simp only [List.mem_cons, ih]
      tauto

theorem mem_sortByLe {α : Type} (le : α → α → Bool) (x : α) (l : List α) :
    x ∈ sortByLe le l ↔ x ∈ l := by
  induction l with
  | nil => simp [sortByLe]
  | cons a t ih => simp [sortByLe, mem_insertLe, ih]

theorem mem_dedup_aux (x : Hotspot) :
    ∀ (l : List Hotspot) (acc : List (ℤ × ℤ) × List Hotspot),
      x ∈ (l.foldl dedupStep acc).2 → x ∈ acc.2 ∨ x ∈ l := by
  intro l
  induction l with
  | nil => intro acc h; exact Or.inl h
  | cons a t ih =>
    intro acc h
    rw [List.foldl_cons] at h
    rcases ih (dedupStep acc a) h with h' | h'
    · unfold dedupStep at h'
      split at h'
      · exact Or.inl h'
      · rcases List.mem_append.1 h' with h'' | h''
        · exact Or.inl h''
        · exact Or.inr (List.mem_cons.2 (Or.inl (List.mem_singleton.1 h'')))
    · exact Or.inr (List.mem_cons.2 (Or.inr h'))

theorem mem_dedupByKey5 (x : Hotspot) (l : List Hotspot) (h : x ∈ dedupByKey5 l) :
    x ∈ l := by
  rcases mem_dedup_aux x l ([], []) h with h' | h'
  · cases h'
  · exact h'

theorem mem_cand_aux (dist : ℚ → ℚ → ℚ → ℚ → ℚ) (predict : ℚ → ℚ → PredPair)
    (reports : List Report) (x : Hotspot) :
    ∀ (l : List Report) (acc : List (ℤ × ℤ) × List Hotspot),
      x ∈ (l.foldl (candStep dist predict reports) acc).2 →
      x ∈ acc.2 ∨ ∃ r ∈ l,
        3 ≤ (reports.filter fun y => dist r.lat r.lng y.lat y.lng ≤ 2).length
        ∧ x = hotspotOf dist predict reports r := by
  intro l
  induction l with
  | nil => intro acc h; exact Or.inl h
  | cons a t ih =>
    intro acc h
    rw [List.foldl_cons] at h
    rcases ih (candStep dist predict reports acc a) h with h' | h'
    · unfold candStep at h'
      split at h'
      · exact Or.inl h'
      · split at h'
        · rcases List.mem_append.1 h' with h'' | h''
          · exact Or.inl h''
          · rename_i hcnt
            exact Or.inr ⟨a, List.mem_cons.2 (Or.inl rfl), hcnt,
              List.mem_singleton.1 h''⟩
        · exact Or.inl h'
    · rcases h' with ⟨r, hr, hcnt, hx⟩
      exact Or.inr ⟨r, List.mem_cons.2 (Or.inr hr), hcnt, hx⟩

theorem cand_aux_empty (dist : ℚ → ℚ → ℚ → ℚ → ℚ) (predict : ℚ → ℚ → PredPair)
    (reports : List Report)
    (hno : ∀ r ∈ reports,
      (reports.filter fun y => dist r.lat r.lng y.lat y.lng ≤ 2).length < 3) :
    ∀ (l : List Report), (∀ r ∈ l, r ∈ reports) →
      ∀ (acc : List (ℤ × ℤ) × List Hotspot), acc.2 = [] →
        (l.foldl (candStep dist predict reports) acc).2 = [] := by
  intro l
  induction l with
  | nil => intro _ acc hacc; exact hacc
  | cons a t ih =>
    intro hl acc hacc
    rw [List.foldl_cons]
    refine ih (fun r hr => hl r (List.mem_cons.2 (Or.inr hr)))
      (candStep dist predict reports acc a) ?_
    unfold candStep
    split
    · exact hacc
    · split
      · rename_i hcnt
        exact absurd hcnt (not_le.2 (hno a (hl a (List.mem_cons.2 (Or.inl rfl)))))
      · exact hacc

theorem hotspotCandidates_chr (dist : ℚ → ℚ → ℚ → ℚ → ℚ)
    (predict : ℚ → ℚ → PredPair) (reports : List Report) (x : Hotspot)
    (h : x ∈ hotspotCandidates dist predict reports) :
    ∃ r ∈ reports,
      3 ≤ (reports.filter fun y => dist r.lat r.lng y.lat y.lng ≤ 2).length
      ∧ x = hotspotOf dist predict reports r := by
  rcases mem_cand_aux dist predict reports x reports ([], []) h with h' | h'
  · cases h'
  · exact h'

theorem hotspotCandidates_empty (dist : ℚ → ℚ → ℚ → ℚ → ℚ)
    (predict : ℚ → ℚ → PredPair) (reports : List Report)
    (hno : ∀ r ∈ reports,
      (reports.filter fun y => dist r.lat r.lng y.lat y.lng ≤ 2).length < 3) :
    hotspotCandidates dist predict reports = [] :=
  cand_aux_empty dist predict reports hno reports (fun _ hr => hr) ([], []) rfl

/-- C9: whenever `identifyHotspots()` installs a hotspot set, every installed
entry's center is the location of a fetched report with at least 3 reports
within 2 km of it — and if no fetched report has 3 such neighbors, the
installed set is empty. -/
theorem c9_hotspot_qualification (dist : ℚ → ℚ → ℚ → ℚ → ℚ)
    (predict : ℚ → ℚ → PredPair) (reports : List Report) (mp : Bool)
    (hs : List Hotspot)
    (hrun : identifyHotspots dist predict (.ok reports) mp = some hs) :
    ((∀ r ∈ reports,
        (reports.filter fun y => dist r.lat r.lng y.lat y.lng ≤ 2).length < 3) →
      hs = [])
    ∧ ∀ h ∈ hs, ∃ r ∈ reports, h.lat = r.lat ∧ h.lng = r.lng ∧
        3 ≤ (reports.filter fun y => dist r.lat r.lng y.lat y.lng ≤ 2).length := by
  simp only [identifyHotspots] at hrun
  split at hrun
  · cases hrun
  · injection hrun with hX
    constructor
    · intro hno
      rw [← hX, hotspotCandidates_empty dist predict reports hno]
      simp [sortByLe, dedupByKey5]
    · intro h hmem
      rw [← hX] at hmem
      have hcat := mem_dedupByKey5 h _ hmem
      have hpred : h ∈ hotspotCandidates dist predict reports := by
        rcases List.mem_append.1 hcat with h1 | h1
        · rcases List.mem_append.1 h1 with h2 | h2
          · exact (mem_sortByLe _ h _).1 (List.take_subset _ _ h2)
          · have h3 := List.mem_reverse.1 h2
            exact (mem_sortByLe _ h _).1 (List.drop_subset _ _ h3)
        · exact (mem_sortByLe _ h _).1 (List.take_subset _ _ h1)
      rcases hotspotCandidates_chr dist predict reports h hpred with ⟨r, hr, hcnt, hx⟩
      exact ⟨r, hr, by rw [hx]; rfl, by rw [hx]; rfl, hcnt⟩

/-- A distance oracle that puts every pair of points 3 km apart. -/
def farDist : ℚ → ℚ → ℚ → ℚ → ℚ := fun _ _ _ _ => 3

/-- A prediction oracle returning the neutral pair. -/
def constPredict : ℚ → ℚ → PredPair := fun _ _ => ⟨1/2, 1/2⟩

/-- One report of a 20-report batch. -/
def clusterReport : Report := ⟨"incident", 3, 0, 1, 1⟩

/-- Twenty fetched reports (enough to pass the `< 20` early return). -/
def c9Reports : List Report :=
  [clusterReport, clusterReport, clusterReport, clusterReport, clusterReport,
   clusterReport, clusterReport, clusterReport, clusterReport, clusterReport,
   clusterReport, clusterReport, clusterReport, clusterReport, clusterReport,
   clusterReport, clusterReport, clusterReport, clusterReport, clusterReport]

/-- C9 witness: with every center 3 km from everything, a 20-report run
installs the empty hotspot set. -/
theorem c9_witness :
    identifyHotspots farDist constPredict (.ok c9Reports) true = some []
    ∧ ([] : List Hotspot) = [] := by
  have h32 : ((3 : ℚ) ≤ 2) = False := by norm_num
  have hrun : identifyHotspots farDist constPredict (.ok c9Reports) true = some [] := by
    simp [identifyHotspots, c9Reports, hotspotCandidates, candStep, farDist, h32,
      sortByLe, dedupByKey5, clusterReport]
  refine ⟨hrun, (c9_hotspot_qualification farDist constPredict c9Reports true [] hrun).1 ?_⟩
  intro r hr
  simp [farDist, h32, c9Reports]

/-! ### C1 and C2: route scoring -/

theorem range_three : List.range 3 = [0, 1, 2] := by decide

theorem midPoints_length (sinPiFrac : ℚ → ℚ) (lat1 lng1 lat2 lng2 : ℚ) (count : ℕ) :
    (getMidPoints sinPiFrac lat1 lng1 lat2 lng2 count).length = count := by
  simp [getMidPoints]

theorem midStep_eq (o : RouteOracles) (i j : ℕ) (acc : JSVal × ℕ)
    (v : Option (List Report)) (hv : o.findNearby i j = .ok v) :
    midStep o i acc j = .ok
      (jsAdd o.numToStr acc.1
        (match o.predict i j with | .ok p => .objPred p | .error _ => .num (1/2)),
       acc.2 + ((v.getD []).filter fun r => r.type ∈ dangerTypes).length) := by
  unfold midStep
  rw [hv]
  rfl

theorem midStep_error (o : RouteOracles) (i j : ℕ) (acc : JSVal × ℕ)
    (hv : o.findNearby i j = .error ()) : midStep o i acc j = .error () := by
  unfold midStep
  rw [hv]
  rfl

theorem foldlM_midStep_ok (o : RouteOracles) (i : ℕ)
    (hfn : ∀ j, isOkB (o.findNearby i j) = true) :
    ∀ (l : List ℕ) (acc : JSVal × ℕ),
      ∃ res, l.foldlM (midStep o i) acc = .ok res := by
  intro l
  induction l with
  | nil => intro acc; exact ⟨acc, rfl⟩
  | cons j t ih =>
    intro acc
    obtain ⟨v, hv⟩ := (isOkB_iff _).1 (hfn j)
    obtain ⟨res, hres⟩ := ih
      (jsAdd o.numToStr acc.1
        (match o.predict i j with | .ok p => .objPred p | .error _ => .num (1/2)),
       acc.2 + ((v.getD []).filter fun r => r.type ∈ dangerTypes).length)
    refine ⟨res, ?_⟩
    rw [List.foldlM_cons, midStep_eq o i j acc v hv]
    exact hres

theorem foldlM_midStep_degraded (o : RouteOracles) (i : ℕ)
    (hp : ∀ j, o.predict i j = .error ())
    (hn : ∀ j, o.findNearby i j = .ok none) :
    ∀ (l : List ℕ) (a : ℚ) (c : ℕ),
      l.foldlM (midStep o i) (.num a, c)
        = .ok (.num (a + l.length * (1/2)), c) := by
  intro l
  induction l with
  | nil =>
    intro a c
    simp only [List.foldlM_nil, List.length_nil, Nat.cast_zero, zero_mul, add_zero]
    rfl
  | cons j t ih =>
    intro a c
    rw [List.foldlM_cons, midStep_eq o i j _ none (hn j), hp j]
    simp only [jsAdd, jsToPrim, Option.getD, List.filter_nil, List.length_nil,
      Nat.add_zero]
    have hbind : ∀ (x : JSVal × ℕ) (k : JSVal × ℕ → Except Unit (JSVal × ℕ)),
        (Except.ok x >>= k) = k x := fun _ _ => rfl
    rw [hbind, ih (a + 1/2) c]
    simp only [Except.ok.injEq, Prod.mk.injEq, JSVal.num.injEq, List.length_cons,
      and_true]
    push_cast
    ring

theorem scoreLeg_degraded (o : RouteOracles) (lat lng : ℚ) (i : ℕ) (pt : ℚ × ℚ)
    (hp : ∀ j, o.predict i j = .error ())
    (hn : ∀ j, o.findNearby i j = .ok none) :
    scoreLeg o lat lng i pt = .ok ⟨(lat, lng), pt, .num (1/2), 0⟩ := by
  unfold scoreLeg
  simp only [midPoints_length, range_three]
  rw [foldlM_midStep_degraded o i hp hn [0, 1, 2] 0 0]
  simp only [bind, Except.bind, pure, Except.pure, jsDivNum, jsToPrim]
  norm_num

theorem scoreLeg_ok (o : RouteOracles) (lat lng : ℚ) (i : ℕ) (pt : ℚ × ℚ)
    (hfn : ∀ j, isOkB (o.findNearby i j) = true) :
    ∃ rec, scoreLeg o lat lng i pt = .ok rec := by
  obtain ⟨res, hres⟩ := foldlM_midStep_ok o i hfn [0, 1, 2] (JSVal.num 0, 0)
  unfold scoreLeg
  simp only [midPoints_length, range_three]
  rw [hres]
  exact ⟨⟨(lat, lng), pt, jsDivNum res.1 ((3 : ℕ) : ℚ), res.2⟩, rfl⟩

theorem mapM_except_ok {α β : Type} (f : α → Except Unit β) :
    ∀ l : List α, (∀ x ∈ l, ∃ y, f x = .ok y) →
      ∃ res, l.mapM f = .ok res ∧ res.length = l.length
        ∧ ∀ y ∈ res, ∃ x ∈ l, f x = .ok y := by
  intro l
  induction l with
  | nil => intro _; exact ⟨[], rfl, rfl, by simp⟩
  | cons a t ih =>
    intro h
    obtain ⟨y, hy⟩ := h a (List.mem_cons.2 (Or.inl rfl))
    obtain ⟨res, hres, hlen, hmem⟩ := ih fun x hx => h x (List.mem_cons.2 (Or.inr hx))
    refine ⟨y :: res, ?_, by simp [hlen], ?_⟩
    · rw [List.mapM_cons, hy, hres]
      rfl
    · intro z hz
      rcases List.mem_cons.1 hz with rfl | hz'
      · exact ⟨a, List.mem_cons.2 (Or.inl rfl), hy⟩
      · obtain ⟨x, hx, hfx⟩ := hmem z hz'
        exact ⟨x, List.mem_cons.2 (Or.inr hx), hfx⟩

theorem mapM_except_error {α β : Type} (f : α → Except Unit β)
    (l : List α) (hne : l ≠ []) (h : ∀ x ∈ l, f x = .error ()) :
    l.mapM f = .error () := by
  cases l with
  | nil => exact absurd rfl hne
  | cons a t =>
    rw [List.mapM_cons, h a (List.mem_cons.2 (Or.inl rfl))]
    rfl

theorem scoreLeg_storeDown (i : ℕ) (pt : ℚ × ℚ) :
    scoreLeg storeDownOracles 1 1 i pt = .error () := by
  unfold scoreLeg
  simp only [midPoints_length, range_three, List.foldlM_cons,
    midStep_error storeDownOracles i 0 (JSVal.num 0, 0) rfl]
  rfl

/-- C1 counterexample: if the Report Store's `findNearby` rejects on every
call, `getSafeRoutes` does not return 8 degraded route records — the rejection
escapes the scoring loop into the outer catch and the request fails with a
500. -/
theorem c1_counterexample :
    getSafeRoutes storeDownOracles (.ok (some 1, some 1)) = .serverError := by
  have hcond : ¬ (jsFalsy (some (1 : ℚ)) ∨ jsFalsy (some (1 : ℚ))) := by
    norm_num [jsFalsy]
  have hlen8 : (List.enum (generateRoutePoints storeDownOracles 1 1)).length = 8 := by
    simp [generateRoutePoints]
  have hne : (List.enum (generateRoutePoints storeDownOracles 1 1)) ≠ [] :=
    List.length_pos.mp (by rw [hlen8]; norm_num)
  have hmap := mapM_except_error
    (fun ip : ℕ × (ℚ × ℚ) => scoreLeg storeDownOracles 1 1 ip.1 ip.2)
    (List.enum (generateRoutePoints storeDownOracles 1 1)) hne
    (fun ip _ => scoreLeg_storeDown ip.1 ip.2)
  simp only [getSafeRoutes, Option.getD_some, if_neg hcond, hmap]

/-- C1 amended: as long as every `findNearby` call resolves (even to `null`),
`getSafeRoutes` answers 200 with exactly 8 route records, and `predictSafety`
rejections are degraded per-midpoint to the neutral score `0.5` (with
`incidents = 0` when no reports are found); but a `findNearby` rejection
escapes the loop and fails the whole request with a 500 instead of degrading. -/
theorem c1_routes_eight_records (o : RouteOracles) (lat lng : ℚ)
    (hlat : lat ≠ 0) (hlng : lng ≠ 0)
    (hfn : ∀ i j, isOkB (o.findNearby i j) = true) :
    ∃ routes, getSafeRoutes o (.ok (some lat, some lng)) = .ok routes
      ∧ routes.length = 8
      ∧ ((∀ i j, o.predict i j = .error ()) → (∀ i j, o.findNearby i j = .ok none) →
          ∀ rec ∈ routes, rec.safetyScore = .num (1/2) ∧ rec.incidents = 0) := by
  obtain ⟨res, hres, hlen, hmem⟩ :=
    mapM_except_ok (fun ip : ℕ × (ℚ × ℚ) => scoreLeg o lat lng ip.1 ip.2)
      (List.enum (generateRoutePoints o lat lng))
      (fun ip _ => scoreLeg_ok o lat lng ip.1 ip.2 (fun j => hfn ip.1 j))
  have hcond : ¬ (jsFalsy (some lat) ∨ jsFalsy (some lng)) := by
    simp [jsFalsy, hlat, hlng]
  refine ⟨res, ?_, ?_, ?_⟩
  · simp only [getSafeRoutes, Option.getD_some, if_neg hcond, hres]
  · rw [hlen]
    simp [generateRoutePoints]
  · intro hp hn rec hrec
    obtain ⟨ip, _, hfx⟩ := hmem rec hrec
    rw [scoreLeg_degraded o lat lng ip.1 ip.2 (fun j => hp ip.1 j) (fun j => hn ip.1 j)]
      at hfx
    injection hfx with hrec'
    rw [← hrec']
    exact ⟨rfl, rfl⟩

/-- C1 witness: with every prediction rejecting and the store resolving `null`
everywhere, the request succeeds with 8 neutral records. -/
theorem c1_witness :
    (1 : ℚ) ≠ 0
    ∧ ∃ routes, getSafeRoutes quietRouteOracles (.ok (some 1, some 1)) = .ok routes
        ∧ routes.length = 8
        ∧ ((∀ i j, quietRouteOracles.predict i j = .error ()) →
            (∀ i j, quietRouteOracles.findNearby i j = .ok none) →
            ∀ rec ∈ routes, rec.safetyScore = .num (1/2) ∧ rec.incidents = 0) :=
  ⟨by norm_num,
   c1_routes_eight_records quietRouteOracles 1 1 (by norm_num) (by norm_num)
     (fun _ _ => rfl)⟩

/-- The route record actually produced by `getSafeRoutes` when every
prediction resolves: the `safetyScore` computed by `totalScore / 3` after
JavaScript coerced the `{score, confidence}` objects through string
concatenation is `NaN`, and the incident total sits in a field named
`incidents`. -/
def nanRecord : RouteRecord := ⟨(1, 1), (1, 1), JSVal.nan, 0⟩

/-- C2 code bug: with every `predictSafety` call resolving to the object
`{score: 0.8, confidence: 0.6}` and no nearby reports, every emitted record
has `safetyScore = NaN` — not the arithmetic mean `0.8` — because the
controller adds the resolved *object* to the numeric accumulator
(`totalScore += score`), which JavaScript coerces to the string
`"0[object Object]…"`, and dividing that by 3 yields `NaN`.  The record also
carries the count under the field name `incidents`, not `incidentCount`. -/
theorem c2_code_bug :
    getSafeRoutes objectScoreOracles (.ok (some 1, some 1))
      = .ok [nanRecord, nanRecord, nanRecord, nanRecord,
             nanRecord, nanRecord, nanRecord, nanRecord] := by
  have hr8 : List.range 8 = [0, 1, 2, 3, 4, 5, 6, 7] := by decide
  have hpts : generateRoutePoints objectScoreOracles 1 1
      = [(1, 1), (1, 1), (1, 1), (1, 1), (1, 1), (1, 1), (1, 1), (1, 1)] := by
    norm_num [generateRoutePoints, hr8, objectScoreOracles, quietRouteOracles]
  have hcond : ¬ (jsFalsy (some (1 : ℚ)) ∨ jsFalsy (some (1 : ℚ))) := by
    norm_num [jsFalsy]
  simp only [getSafeRoutes, Option.getD_some, if_neg hcond, hpts]
  rfl

end Safehaven

